import Mathlib

/-!
Verification of the valorant-instalock client session engine.

This file gives a shallow embedding, translated from the Rust sources, of

* the session data model (`src/valorant_client/types.rs`),
* the HTTP retry wrapper and the state-dependent HTTP operations
  (`src/valorant_client/http.rs`),
* the automation sequencer `handle_pregame` and the event / command loops
  (`src/valorant_client.rs`),
* the config lookup `Config::get_agents` (`src/config.rs`),
* the reference-data bootstrap `init_globals` (`src/global.rs`),
* the websocket frame decoder and its duplicate suppression
  (`src/valorant_client/stream.rs`), including a small JSON parser standing
  in for `serde_json` (it accepts standard JSON; numbers are kept by their
  integer part, which no decoder below inspects beyond the opcode).

Network, time and logging effects are made explicit: results of HTTP calls
and of the RNG shuffle are inputs (oracles), and observable side effects
(lock attempts, probes, waits) are outputs.
-/

/-- Game phase, from `GameLoopState` in types.rs (wire values PREGAME,
INGAME, MENUS).  `Menus` is the idle phase. -/
inductive GameLoopState where
  | Pregame
  | Ingame
  | Menus
deriving DecidableEq, Repr

/-- Credentials payload, from `ValorantClientAuth` in types.rs:
the access token and the entitlement token. -/
structure ValorantClientAuth where
  access_token : String
  token : String
deriving DecidableEq, Repr

/-- Phase report, from `ClientStatus` in types.rs.  `maybe_match_id` is the
`loopStateMetadata` field: a match id or the empty string. -/
structure ClientStatus where
  subject : String
  loop_state : GameLoopState
  maybe_match_id : String
deriving DecidableEq, Repr

/-- Normalized event vocabulary, from `ValorantEvent` in stream.rs. -/
inductive ValorantEvent where
  | EntitlementsTokenChanged (auth : ValorantClientAuth)
  | ClientInfo (status : ClientStatus)
deriving DecidableEq, Repr

/-- Playable character, from `GameAgent` in valo_types.rs (the `AgentName`
newtype is flattened to its `.0` string). -/
structure GameAgent where
  uuid : String
  name : String
deriving DecidableEq, Repr

/-- Map catalog entry, from `GameMap` in valo_types.rs (`MapName` and
`MapUrl` newtypes flattened to their `.0` strings). -/
structure GameMap where
  uuid : String
  name : String
  map_url : String
deriving DecidableEq, Repr

/-- Per-map character selection, from `AgentConfig` in config.rs. -/
inductive AgentConfig where
  | None
  | Some (agents : List String)
  | Random
  | RandomOf (agents : List String)
deriving DecidableEq, Repr

/-- Top-level agent configuration, from `MapAgentConfig` in config.rs; the
`HashMap<MapName, AgentConfig>` is embedded as an association list. -/
inductive MapAgentConfig where
  | None
  | Default (cfg : AgentConfig)
  | PerSelectedMap (map_agents : List (String × AgentConfig))
  | DefaultOnSelectedMaps (dflt : AgentConfig) (maps : List String)
  | PerSelectedMapOrDefault (dflt : AgentConfig)
      (map_agents : List (String × AgentConfig))
deriving DecidableEq, Repr

/-- Automation config, from `Config` in config.rs. -/
structure Config where
  instalock_wait_ms : Nat
  map_agent_config : MapAgentConfig
deriving DecidableEq, Repr

/-- `AgentConfig::get_agents` from config.rs.  `gameAgents` is the
`GAME_AGENTS` global; `shuffle` is the oracle standing in for
`SliceRandom::shuffle(thread_rng())`. -/
def AgentConfig.get_agents (gameAgents : List GameAgent)
    (shuffle : List GameAgent → List GameAgent) :
    AgentConfig → List GameAgent
  | .None => []
  | .Some agents => gameAgents.filter (fun a => agents.contains a.name)
  | .Random => shuffle gameAgents
  | .RandomOf agents =>
      shuffle (gameAgents.filter (fun a => agents.contains a.name))

/-- Association-list lookup standing in for `HashMap::get`. -/
def lookupAgentConfig (map_agents : List (String × AgentConfig))
    (map_name : String) : Option AgentConfig :=
  (map_agents.find? (fun p => p.1 == map_name)).map (fun p => p.2)

/-- `Config::get_agents` from config.rs. -/
def Config.get_agents (cfg : Config) (gameAgents : List GameAgent)
    (shuffle : List GameAgent → List GameAgent) (map_name : String) :
    List GameAgent :=
  match cfg.map_agent_config with
  | .None => []
  | .Default agents => agents.get_agents gameAgents shuffle
  | .PerSelectedMap map_agents =>
      match lookupAgentConfig map_agents map_name with
      | some c => c.get_agents gameAgents shuffle
      | none => []
  | .DefaultOnSelectedMaps d maps =>
      if maps.contains map_name then d.get_agents gameAgents shuffle else []
  | .PerSelectedMapOrDefault d map_agents =>
      match lookupAgentConfig map_agents map_name with
      | some c => c.get_agents gameAgents shuffle
      | none => d.get_agents gameAgents shuffle

/-- Outcome of one `reqwest` send attempt, as distinguished by
`send_with_retry` in http.rs: success, an error for which `is_timeout()`
holds, or any other error. -/
inductive ReqResult (α : Type) where
  | ok (v : α)
  | timeoutErr (e : String)
  | otherErr (e : String)
deriving DecidableEq, Repr

/-- `send_with_retry` from http.rs.  `attempt n` is the outcome of the
(n+1)-th send of the (cloned) request; the second component is the number
of attempts actually performed. -/
def send_with_retry {α : Type} (attempt : Nat → ReqResult α) :
    ReqResult α × Nat :=
  match attempt 0 with
  | .ok v => (.ok v, 1)
  | .timeoutErr _ => (attempt 1, 2)
  | .otherErr e => (.otherErr e, 1)

/-- Pregame match detail, from `PregameMatch` in http.rs. -/
structure PregameMatch where
  match_id : String
  map_url : String
deriving DecidableEq, Repr

/-- `CurrentPlayerPregame` from http.rs. -/
structure CurrentPlayerPregame where
  match_id : String
deriving DecidableEq, Repr

/-- `CurrentPlayerIngame` from http.rs. -/
structure CurrentPlayerIngame where
  match_id : String
deriving DecidableEq, Repr

/-- Environment of `handle_pregame`: the `INTERRUPT` global, the outcome of
`get_pregame_match`, the `GAME_MAPS` / `GAME_AGENTS` globals, the RNG
shuffle oracle, and the outcome of `lock_agent` per agent uuid. -/
structure PregameEnv where
  interrupt : Bool
  get_pregame_match : Except String PregameMatch
  game_maps : List GameMap
  game_agents : List GameAgent
  shuffle : List GameAgent → List GameAgent
  lock_agent : String → Except String Unit

/-- Map resolution step of `handle_pregame` (valorant_client.rs:219-238):
on a successful fetch, look the returned map url up in `GAME_MAPS`; on a
failed fetch, fall back to the catalog entry named "Ascent".  Either
`find` is followed by `.unwrap()` in the source, so a `none` here is a
panic there. -/
def resolve_map (env : PregameEnv) : Option GameMap :=
  match env.get_pregame_match with
  | .ok pregame => env.game_maps.find? (fun m => m.map_url == pregame.map_url)
  | .error _ => env.game_maps.find? (fun m => m.name == "Ascent")

/-- Lock loop of `handle_pregame` (valorant_client.rs:255-260):
`while i < agents.len() && lock_agent(agents[i]).is_err() do i += 1`.
Returns the uuids attempted in order, and on success the locked agent with
the number of failed attempts preceding it (the final loop index `i`). -/
def lock_agents (lock : String → Except String Unit) :
    List GameAgent → Nat → List String × Option (GameAgent × Nat)
  | [], _ => ([], none)
  | a :: rest, i =>
    match lock a.uuid with
    | .ok _ => ([a.uuid], some (a, i))
    | .error _ =>
      let r := lock_agents lock rest (i + 1)
      (a.uuid :: r.1, r.2)

/-- Observable outcome of `handle_pregame` (valorant_client.rs:206-279).
`noMatchId` is the early `None` return when `current_match_id` is absent;
`interrupted` the `None` return at the `INTERRUPT` check; `panicked` the
`.unwrap()` on a failed map lookup; `done attempted locked waited` the
normal completion with the lock attempts made, the lock result, and
whether the initial `instalock_wait` delay was awaited. -/
inductive PregameOutcome where
  | noMatchId
  | interrupted
  | panicked
  | done (attempted : List String) (locked : Option (GameAgent × Nat))
      (waited : Bool)
deriving DecidableEq, Repr

/-- `ValorantClient::handle_pregame` from valorant_client.rs, with the
session's `current_match_id` passed in and effects explicit. -/
def handle_pregame (cfg : Config) (match_id : Option String)
    (env : PregameEnv) (wait : Bool) : PregameOutcome :=
  match match_id with
  | none => .noMatchId
  | some _ =>
    if env.interrupt then .interrupted
    else
      match resolve_map env with
      | none => .panicked
      | some map =>
        let agents := cfg.get_agents env.game_agents env.shuffle map.name
        let r := lock_agents env.lock_agent agents 0
        .done r.1 r.2 wait

/-- Reference data triple set by `init_globals` (global.rs); the
`ValorantApiVersion` is kept as its riot client version string. -/
structure ApiData where
  api_version : String
  agents : List GameAgent
  maps : List GameMap
deriving DecidableEq, Repr

/-- `init_globals` from global.rs: remote fetch first, cache on failure,
and on a second failure the defaults `(Default::default(), vec![], vec![])`. -/
def init_globals (remote : Except String ApiData)
    (cache : Except String ApiData) : ApiData :=
  match remote with
  | .ok d => d
  | .error _ =>
    match cache with
    | .ok d => d
    | .error _ => { api_version := "", agents := [], maps := [] }

/-- Session State: the mutex-guarded mutable fields of `ValorantClient`
(`auth`, `current_match_id`, `loop_state`). -/
structure SessionState where
  auth : ValorantClientAuth
  current_match_id : Option String
  loop_state : GameLoopState
deriving DecidableEq, Repr

/-- Which membership probes `ValorantClient::init` issued, in order. -/
inductive ProbeKind where
  | pregame
  | ingame
deriving DecidableEq, Repr

/-- Result of the bootstrap path: the session state produced, the probes
made in order, and the `handle_pregame` outcome when it was invoked. -/
structure InitResult where
  state : SessionState
  probes : List ProbeKind
  pregameRun : Option PregameOutcome
deriving DecidableEq, Repr

/-- `ValorantClient::init` from valorant_client.rs:144-160, after the
construction of `Self::new` (which starts at `Menus` with no match id):
probe `current_pregame`; on success enter `Pregame`, record the match id
and run `handle_pregame(false)`; on failure probe `current_ingame`; on its
success enter `Ingame` and record the match id; otherwise leave the fresh
state untouched. -/
def ValorantClient.init (auth : ValorantClientAuth) (cfg : Config)
    (pregameProbe : Except String CurrentPlayerPregame)
    (ingameProbe : Except String CurrentPlayerIngame)
    (env : PregameEnv) : InitResult :=
  let s0 : SessionState :=
    { auth := auth, current_match_id := none, loop_state := .Menus }
  match pregameProbe with
  | .ok pregame =>
    let s1 := { s0 with loop_state := .Pregame,
                        current_match_id := some pregame.match_id }
    { state := s1, probes := [.pregame],
      pregameRun := some (handle_pregame cfg s1.current_match_id env false) }
  | .error _ =>
    match ingameProbe with
    | .ok ingame =>
      { state := { s0 with loop_state := .Ingame,
                           current_match_id := some ingame.match_id },
        probes := [.pregame, .ingame], pregameRun := none }
    | .error _ =>
      { state := s0, probes := [.pregame, .ingame], pregameRun := none }

/-- One step of the event loop of `spawn_event_handler`
(valorant_client.rs:412-456) on an already initialized client.  The second
component records the match id for which `handle_pregame(true)` was
invoked, `none` when no automation ran. -/
def handleEvent (client : SessionState) (event : ValorantEvent) :
    SessionState × Option String :=
  match event with
  | .EntitlementsTokenChanged auth => ({ client with auth := auth }, none)
  | .ClientInfo status =>
    match status.loop_state with
    | .Pregame =>
      if client.loop_state = .Pregame then (client, none)
      else
        ({ client with loop_state := .Pregame,
                       current_match_id := some status.maybe_match_id },
         some status.maybe_match_id)
    | .Ingame =>
      if client.loop_state = .Ingame then (client, none)
      else
        ({ client with loop_state := .Ingame,
                       current_match_id := some status.maybe_match_id }, none)
    | .Menus =>
      if client.loop_state = .Menus then (client, none)
      else
        ({ client with loop_state := .Menus, current_match_id := none }, none)

/-- The event loop folded over a finite prefix of the normalized event
sequence, collecting the match ids for which the Automation Sequence ran. -/
def processEvents (client : SessionState) :
    List ValorantEvent → SessionState × List String
  | [] => (client, [])
  | e :: rest =>
    let r := handleEvent client e
    let rr := processEvents r.1 rest
    (rr.1, r.2.toList ++ rr.2)

/-- Invariant of §3 of the spec: the match identifier is present exactly
when the phase is Pregame or InGame. -/
def matchIdInvariant (s : SessionState) : Prop :=
  s.current_match_id.isSome = true ↔
    (s.loop_state = .Pregame ∨ s.loop_state = .Ingame)

instance (s : SessionState) : Decidable (matchIdInvariant s) := by
  unfold matchIdInvariant; infer_instance

/-- JSON values, standing in for `serde_json::Value` (numbers are kept by
their integer part; no decoder below inspects a number other than the
frame opcode, which is a small integer on every frame of interest). -/
inductive Json where
  | null
  | bool (b : Bool)
  | num (n : Int)
  | str (s : String)
  | arr (elems : List Json)
  | obj (fields : List (String × Json))

/-- Opening brace character (written by code point to keep JSON literals
readable elsewhere). -/
def lbrace : Char := Char.ofNat 123

/-- Closing brace character. -/
def rbrace : Char := Char.ofNat 125

/-- JSON whitespace. -/
def isJsonWs (c : Char) : Bool :=
  c = ' ' || c = '\n' || c = '\t' || c = '\r'

/-- Drop leading JSON whitespace. -/
def skipWs : List Char → List Char
  | [] => []
  | c :: rest => if isJsonWs c then skipWs rest else c :: rest

/-- Hex digit value. -/
def parseHexDigit (c : Char) : Option Nat :=
  if 48 ≤ c.toNat ∧ c.toNat ≤ 57 then some (c.toNat - 48)
  else if 97 ≤ c.toNat ∧ c.toNat ≤ 102 then some (c.toNat - 97 + 10)
  else if 65 ≤ c.toNat ∧ c.toNat ≤ 70 then some (c.toNat - 65 + 10)
  else none

/-- Body of a JSON string after the opening quote; handles the standard
escapes.  The fuel argument bounds the recursion (the input length plus
one always suffices). -/
def parseStringBody : Nat → List Char → List Char → Option (String × List Char)
  | 0, _, _ => none
  | _ + 1, [], _ => none
  | fuel + 1, c :: rest, acc =>
    if c = '"' then some (String.mk acc.reverse, rest)
    else if c = '\\' then
      match rest with
      | [] => none
      | e :: rest2 =>
        if e = '"' then parseStringBody fuel rest2 ('"' :: acc)
        else if e = '\\' then parseStringBody fuel rest2 ('\\' :: acc)
        else if e = '/' then parseStringBody fuel rest2 ('/' :: acc)
        else if e = 'n' then parseStringBody fuel rest2 ('\n' :: acc)
        else if e = 't' then parseStringBody fuel rest2 ('\t' :: acc)
        else if e = 'r' then parseStringBody fuel rest2 ('\r' :: acc)
        else if e = 'b' then parseStringBody fuel rest2 (Char.ofNat 8 :: acc)
        else if e = 'f' then parseStringBody fuel rest2 (Char.ofNat 12 :: acc)
        else if e = 'u' then
          match rest2 with
          | h1 :: h2 :: h3 :: h4 :: rest3 =>
            match parseHexDigit h1, parseHexDigit h2,
                  parseHexDigit h3, parseHexDigit h4 with
            | some a, some b, some c2, some d =>
              parseStringBody fuel rest3
                (Char.ofNat (((a * 16 + b) * 16 + c2) * 16 + d) :: acc)
            | _, _, _, _ => none
          | _ => none
        else none
    else parseStringBody fuel rest (c :: acc)

/-- Longest leading run of decimal digits. -/
def parseDigits : List Char → List Nat × List Char
  | [] => ([], [])
  | c :: rest =>
    if 48 ≤ c.toNat ∧ c.toNat ≤ 57 then
      let r := parseDigits rest
      ((c.toNat - 48) :: r.1, r.2)
    else ([], c :: rest)

/-- Digits to a natural number, most significant first. -/
def digitsToNat (ds : List Nat) : Nat :=
  ds.foldl (fun acc d => acc * 10 + d) 0

/-- JSON number; the optional fraction and exponent are consumed and
discarded, keeping the signed integer part. -/
def parseNumber (cs : List Char) : Option (Json × List Char) :=
  let p : Bool × List Char :=
    match cs with
    | c :: rest => if c = '-' then (true, rest) else (false, cs)
    | [] => (false, cs)
  match parseDigits p.2 with
  | ([], _) => none
  | (ds, cs2) =>
    let cs3 :=
      match cs2 with
      | c :: rest => if c = '.' then (parseDigits rest).2 else cs2
      | [] => cs2
    let cs4 :=
      match cs3 with
      | c :: rest =>
        if c = 'e' ∨ c = 'E' then
          let rest2 :=
            match rest with
            | s :: r2 => if s = '+' ∨ s = '-' then r2 else rest
            | [] => rest
          (parseDigits rest2).2
        else cs3
      | [] => cs3
    let n : Int := Int.ofNat (digitsToNat ds)
    some (.num (if p.1 then -n else n), cs4)

/-- Literal keyword tail (rue, alse, ull). -/
def expectLit : List Char → List Char → Option (List Char)
  | [], cs => some cs
  | _ :: _, [] => none
  | l :: ls, c :: cs => if c = l then expectLit ls cs else none

mutual

/-- JSON value parser; the fuel bounds the recursion depth and the number
of container members. -/
def parseVal : Nat → List Char → Option (Json × List Char)
  | 0, _ => none
  | fuel + 1, cs =>
    match skipWs cs with
    | [] => none
    | c :: rest =>
      if c = lbrace then parseMembers fuel (skipWs rest) []
      else if c = '[' then parseElems fuel (skipWs rest) []
      else if c = '"' then
        (parseStringBody (rest.length + 1) rest []).map
          (fun r => (.str r.1, r.2))
      else if c = 't' then
        (expectLit ['r', 'u', 'e'] rest).map (fun r => (.bool true, r))
      else if c = 'f' then
        (expectLit ['a', 'l', 's', 'e'] rest).map (fun r => (.bool false, r))
      else if c = 'n' then
        (expectLit ['u', 'l', 'l'] rest).map (fun r => (.null, r))
      else parseNumber (c :: rest)

/-- Object members, called just past the opening brace (whitespace
skipped), accumulating parsed members. -/
def parseMembers : Nat → List Char → List (String × Json) →
    Option (Json × List Char)
  | 0, _, _ => none
  | fuel + 1, cs, acc =>
    match cs with
    | [] => none
    | c :: rest =>
      if c = rbrace then
        if acc.isEmpty then some (.obj [], rest) else none
      else if c = '"' then
        match parseStringBody (rest.length + 1) rest [] with
        | none => none
        | some (key, cs2) =>
          match skipWs cs2 with
          | ':' :: cs3 =>
            match parseVal fuel cs3 with
            | none => none
            | some (v, cs4) =>
              match skipWs cs4 with
              | c5 :: cs5 =>
                if c5 = ',' then
                  parseMembers fuel (skipWs cs5) (acc ++ [(key, v)])
                else if c5 = rbrace then some (.obj (acc ++ [(key, v)]), cs5)
                else none
              | [] => none
          | _ => none
      else none

/-- Array elements, called just past the opening bracket (whitespace
skipped), accumulating parsed elements. -/
def parseElems : Nat → List Char → List Json → Option (Json × List Char)
  | 0, _, _ => none
  | fuel + 1, cs, acc =>
    match cs with
    | [] => none
    | c :: rest =>
      if c = ']' then
        if acc.isEmpty then some (.arr [], rest) else none
      else
        match parseVal fuel cs with
        | none => none
        | some (v, cs2) =>
          match skipWs cs2 with
          | c3 :: cs3 =>
            if c3 = ',' then parseElems fuel (skipWs cs3) (acc ++ [v])
            else if c3 = ']' then some (.arr (acc ++ [v]), cs3)
            else none
          | [] => none

end

/-- Full JSON document parser standing in for `serde_json::from_str`'s
scanning phase: one value, then end of input. -/
def parseJson (s : String) : Option Json :=
  match parseVal (2 * s.length + 4) s.data with
  | none => none
  | some (v, rest) => if skipWs rest = [] then some v else none

/-- Subscribed message kinds, from `EventKind` in types.rs; deserialized
via `try_from = "&str"` from the two recognized kind names. -/
inductive EventKind where
  | EntitlementsToken
  | MessagingService
deriving DecidableEq, Repr

/-- String form of `EventKind` (the `strum` serializations). -/
def EventKind.fromString (s : String) : Option EventKind :=
  if s = "OnJsonApiEvent_entitlements_v1_token" then some .EntitlementsToken
  else if s = "OnJsonApiEvent_riot-messaging-service_v1_message" then
    some .MessagingService
  else none

/-- `DataModifier` from types.rs (externally tagged unit variants). -/
inductive DataModifier where
  | Update
  | Create
  | Delete
deriving DecidableEq, Repr

/-- Deserialization of `DataModifier` from its variant name. -/
def DataModifier.fromString (s : String) : Option DataModifier :=
  if s = "Update" then some .Update
  else if s = "Create" then some .Create
  else if s = "Delete" then some .Delete
  else none

/-- `EventData<T>` from types.rs: the camelCase fields data, eventType,
uri (unknown fields ignored, as serde does by default). -/
structure EventData (T : Type) where
  data : T
  event_type : DataModifier
  uri : String
deriving DecidableEq, Repr

/-- `Event<T>` from types.rs, the tuple struct
`(i32 opcode, EventKind, EventData<T>)`. -/
structure Event (T : Type) where
  opcode : Int
  kind : EventKind
  payload : EventData T
deriving DecidableEq, Repr

/-- `MessagingServiceMessage<T>` from types.rs: only the `payload` field is
kept, and it is a JSON-encoded string re-parsed into `T`. -/
structure MessagingServiceMessage (T : Type) where
  payload : T
deriving DecidableEq, Repr

/-- First field of an object with the given key, as a serde `MapAccess`
visitor finds it. -/
def Json.getField (j : Json) (key : String) : Option Json :=
  match j with
  | .obj fields => (fields.find? (fun p => p.1 == key)).map (fun p => p.2)
  | _ => none

/-- String extraction. -/
def Json.asString : Json → Option String
  | .str s => some s
  | _ => none

/-- Integer extraction. -/
def Json.asInt : Json → Option Int
  | .num n => some n
  | _ => none

/-- Deserializer for `ValorantClientAuth` (fields accessToken, token;
everything else ignored). -/
def decodeValorantClientAuth (j : Json) : Option ValorantClientAuth := do
  let a ← (j.getField "accessToken").bind Json.asString
  let t ← (j.getField "token").bind Json.asString
  pure { access_token := a, token := t }

/-- Deserializer for `GameLoopState` (SCREAMING_SNAKE_CASE wire values). -/
def decodeGameLoopState (j : Json) : Option GameLoopState :=
  match j with
  | .str s =>
    if s = "PREGAME" then some .Pregame
    else if s = "INGAME" then some .Ingame
    else if s = "MENUS" then some .Menus
    else none
  | _ => none

/-- Deserializer for `ClientStatus` (fields subject, loopState,
loopStateMetadata; everything else ignored). -/
def decodeClientStatus (j : Json) : Option ClientStatus := do
  let subject ← (j.getField "subject").bind Json.asString
  let ls ← (j.getField "loopState").bind decodeGameLoopState
  let mid ← (j.getField "loopStateMetadata").bind Json.asString
  pure { subject := subject, loop_state := ls, maybe_match_id := mid }

/-- Deserializer for `EventData<T>` given one for `T`. -/
def decodeEventData {T : Type} (dec : Json → Option T) (j : Json) :
    Option (EventData T) := do
  let d ← (j.getField "data").bind dec
  let et ← (j.getField "eventType").bind
    (fun x => x.asString.bind DataModifier.fromString)
  let u ← (j.getField "uri").bind Json.asString
  pure { data := d, event_type := et, uri := u }

/-- Deserializer for the tuple struct `Event<T>`: an array of exactly three
elements, an in-range i32 opcode, a recognized kind name, and the data. -/
def decodeEvent {T : Type} (dec : Json → Option T) (j : Json) :
    Option (Event T) :=
  match j with
  | .arr [op, kindJ, dataJ] => do
    let n ← op.asInt
    if n < -(2 ^ 31) ∨ 2 ^ 31 ≤ n then none
    else
      let k ← kindJ.asString.bind EventKind.fromString
      let d ← decodeEventData dec dataJ
      pure { opcode := n, kind := k, payload := d }
  | _ => none

/-- Deserializer for `MessagingServiceMessage<T>`: the payload field is a
string holding JSON, re-parsed (`deserialize_from_stringified_json`). -/
def decodeMessagingServiceMessage {T : Type} (dec : Json → Option T)
    (j : Json) : Option (MessagingServiceMessage T) := do
  let pstr ← (j.getField "payload").bind Json.asString
  let inner ← parseJson pstr
  let v ← dec inner
  pure { payload := v }

/-- `RelevantEvent` from stream.rs, an untagged enum with the variants in
this declaration order: `ClientInfo` first, `EntitlementsToken` second. -/
inductive RelevantEvent where
  | ClientInfo (e : Event (MessagingServiceMessage ClientStatus))
  | EntitlementsToken (e : Event ValorantClientAuth)
deriving DecidableEq, Repr

/-- Untagged deserialization of `RelevantEvent` exactly as serde performs
it on the source enum: try the variants in declaration order and return
the first that succeeds, so the status-report shape (`ClientInfo`) is
attempted before the credentials shape (`EntitlementsToken`). -/
def decodeRelevantEvent (j : Json) : Option RelevantEvent :=
  match decodeEvent (decodeMessagingServiceMessage decodeClientStatus) j with
  | some e => some (.ClientInfo e)
  | none =>
    match decodeEvent decodeValorantClientAuth j with
    | some e => some (.EntitlementsToken e)
    | none => none

/-- Modelled from the spec: decoder following the priority order stated in
§4.1 ("(1) a credentials-refresh event ..., (2) a status-report event
..."), i.e. the credentials shape first.  Kept only to compare against
`decodeRelevantEvent`, which is translated from the source. -/
def decodeRelevantEventSpecOrder (j : Json) : Option RelevantEvent :=
  match decodeEvent decodeValorantClientAuth j with
  | some e => some (.EntitlementsToken e)
  | none =>
    match decodeEvent (decodeMessagingServiceMessage decodeClientStatus) j with
    | some e => some (.ClientInfo e)
    | none => none

/-- Conversion performed by `proxy_ws_events` after a successful decode
(stream.rs:138-153). -/
def RelevantEvent.toValorantEvent : RelevantEvent → ValorantEvent
  | .ClientInfo e => .ClientInfo e.payload.data.payload
  | .EntitlementsToken e => .EntitlementsTokenChanged e.payload.data

/-- `serde_json::from_str::<RelevantEvent>` from stream.rs:122. -/
def parseRelevantFrame (text : String) : Option RelevantEvent :=
  (parseJson text).bind decodeRelevantEvent

/-- Items of the websocket stream as `proxy_ws_events` distinguishes them:
a text or binary message (carried as its text), a transport error, a close
frame, or any other frame kind (ping/pong, ignored). -/
inductive WsItem where
  | msg (text : String)
  | wsError
  | closeFrame
  | other

/-- `proxy_ws_events` from stream.rs:96-192, as the list of events that
reach the internal queue for a given incoming item sequence, threaded
through the `last_event` register: transport errors and close frames end
the loop; empty texts, undecodable frames and frames equal to the last
decoded event are skipped (the latter without touching `last_event`,
which already holds that value); every other decoded frame updates
`last_event` and is delivered.  The full-queue backoff retries delivery
and the closed-queue case ends the loop, so delivery order is exactly
this list. -/
def proxy_ws_events (last : Option RelevantEvent) :
    List WsItem → List ValorantEvent
  | [] => []
  | .wsError :: _ => []
  | .closeFrame :: _ => []
  | .other :: rest => proxy_ws_events last rest
  | .msg text :: rest =>
    if text = "" then proxy_ws_events last rest
    else
      match parseRelevantFrame text with
      | none => proxy_ws_events last rest
      | some e =>
        if last = some e then proxy_ws_events last rest
        else e.toValorantEvent :: proxy_ws_events (some e) rest

/-- Receiver side of the bounded internal queue backing
`ValorantEventStream`: the events still buffered, and whether the sending
half (the background decode loop) has gone away. -/
structure RxState where
  buffered : List ValorantEvent
  senderClosed : Bool
deriving DecidableEq, Repr

/-- `ValorantEventStream` from stream.rs: `rx: Option<Receiver<...>>`. -/
structure ValorantEventStream where
  rx : Option RxState
deriving DecidableEq, Repr

/-- `ValorantEventStream::next` from stream.rs:80-85.  The outer `Option`
models the suspension of `rx.recv().await`: `none` when the call would
suspend (queue open but empty), otherwise the yielded item and the stream
afterwards.  When `rx` was taken by `close`, the call returns `None`
without suspending; `recv` on a closed drained queue keeps returning
`None`. -/
def ValorantEventStream.next (s : ValorantEventStream) :
    Option (Option ValorantEvent × ValorantEventStream) :=
  match s.rx with
  | none => some (none, s)
  | some st =>
    match st.buffered with
    | e :: rest => some (some e, ⟨some ⟨rest, st.senderClosed⟩⟩)
    | [] => if st.senderClosed then some (none, s) else none

/-- `ValorantEventStream::close` from stream.rs:87-93: takes the receiver
out (and closes it). -/
def ValorantEventStream.close (_s : ValorantEventStream) :
    ValorantEventStream := ⟨none⟩

/-- Permanent termination: the receiver was taken by `close`, or the
background loop ended and the queue is drained. -/
def ValorantEventStream.ended (s : ValorantEventStream) : Bool :=
  match s.rx with
  | none => true
  | some st => st.buffered.isEmpty && st.senderClosed

/-- `ValorantCommand` from valorant_client.rs. -/
inductive ValorantCommand where
  | QuitPregame
  | QuitGame
deriving DecidableEq, Repr

/-- Outcomes of the remote quit requests, inputs to the command handlers
(only consulted when a request is actually sent). -/
structure HttpEnv where
  quit_pregame_http : Except String Unit
  quit_ingame_http : Except String Unit

/-- `ValorantClient::quit_pregame` from http.rs:57-78: the match id is
required (`context("No MatchID available")?`) before any request is sent;
the second component records whether the HTTP request went out. -/
def quit_pregame (match_id : Option String)
    (httpRes : Except String Unit) : Except String Unit × Bool :=
  match match_id with
  | none => (.error "No MatchID available", false)
  | some _ => (httpRes, true)

/-- `ValorantClient::quit_ingame` from http.rs:159-170: same match id
requirement. -/
def quit_ingame (match_id : Option String)
    (httpRes : Except String Unit) : Except String Unit × Bool :=
  match match_id with
  | none => (.error "No MatchID available", false)
  | some _ => (httpRes, true)

/-- One command dispatch of `spawn_cmd_handler`
(valorant_client.rs:307-327): both arms only log the result; the session
state is not modified and no retry is made. -/
def handleCommand (s : SessionState) (env : HttpEnv)
    (cmd : ValorantCommand) : Except String Unit × Bool :=
  match cmd with
  | .QuitPregame => quit_pregame s.current_match_id env.quit_pregame_http
  | .QuitGame => quit_ingame s.current_match_id env.quit_ingame_http

/-- The command loop of `spawn_cmd_handler` over a finite command
sequence: every command is processed in order, each to completion, and a
failed command never ends the loop. -/
def spawn_cmd_handler (s : SessionState) (env : HttpEnv) :
    List ValorantCommand → List (Except String Unit × Bool)
  | [] => []
  | cmd :: rest => handleCommand s env cmd :: spawn_cmd_handler s env rest

deriving instance DecidableEq for Except

/-- Stringified `ClientStatus` payload used in the ambiguity example. -/
def ambiguousPayload : String :=
  "\x7b\"subject\":\"s\",\"loopState\":\"MENUS\",\"loopStateMetadata\":\"\"\x7d"

/-- A frame matching both recognized shapes: its `data` object carries the
credentials fields and a messaging-service `payload` field at once. -/
def ambiguousFrame : Json :=
  .arr [.num 8, .str "OnJsonApiEvent_entitlements_v1_token",
    .obj [("data", .obj [("accessToken", .str "a"), ("token", .str "t"),
                         ("payload", .str ambiguousPayload)]),
          ("eventType", .str "Update"), ("uri", .str "u")]]

/-- Concrete credentials-refresh frame text. -/
def frameX : String :=
  "[8,\"OnJsonApiEvent_entitlements_v1_token\",\x7b\"data\":\x7b\"accessToken\":\"x\",\"token\":\"y\"\x7d,\"eventType\":\"Update\",\"uri\":\"/e\"\x7d]"

/-- Concrete credentials-refresh frame text differing from `frameX`. -/
def frameZ : String :=
  "[8,\"OnJsonApiEvent_entitlements_v1_token\",\x7b\"data\":\x7b\"accessToken\":\"z\",\"token\":\"y\"\x7d,\"eventType\":\"Update\",\"uri\":\"/e\"\x7d]"

/-- The decoded form of `frameX`. -/
def frameXEvent : RelevantEvent :=
  .EntitlementsToken ⟨8, .EntitlementsToken, ⟨⟨"x", "y"⟩, .Update, "/e"⟩⟩

/-- Example agents for concrete lock scenarios. -/
def agA : GameAgent := ⟨"a", "Astra"⟩

/-- Second example agent. -/
def agB : GameAgent := ⟨"b", "Breach"⟩

/-- Third example agent. -/
def agC : GameAgent := ⟨"c", "Clove"⟩

/-- Example lock oracle: only agent uuid "c" locks successfully. -/
def lockEx : String → Except String Unit :=
  fun u => if u = "c" then .ok () else .error "HTTP 409"

/-- Example credentials. -/
def authEx : ValorantClientAuth := ⟨"at", "et"⟩

/-- Example map catalog entry. -/
def ascentMap : GameMap := ⟨"map-uuid", "Ascent", "/Game/Maps/Ascent/Ascent"⟩

/-- Example config with agent selection disabled. -/
def cfgNone : Config := ⟨500, .None⟩

/-- Example pregame environment: fetch fails, catalog holds Ascent. -/
def envEx : PregameEnv :=
  ⟨false, .error "fetch failed", [ascentMap], [], id, fun _ => .error "x"⟩

/-- Example pregame environment with an empty map catalog. -/
def envNoMaps : PregameEnv :=
  ⟨false, .error "fetch failed", [], [], id, fun _ => .error "x"⟩

/-- Example idle session state. -/
def stateIdle : SessionState := ⟨authEx, none, .Menus⟩

/-- Example HTTP outcomes for the command handlers. -/
def httpEnvEx : HttpEnv := ⟨.ok (), .ok ()⟩

/-- Example attempt oracle: first send times out, the retry succeeds. -/
def attemptTimeoutThenOk : Nat → ReqResult Nat :=
  fun n => if n = 0 then .timeoutErr "t" else .ok 7

/-- Example drained stream whose background loop has ended. -/
def streamEnded : ValorantEventStream := ⟨some ⟨[], true⟩⟩

/-- Example Pregame phase report for match "m1". -/
def statusPregameM1 : ClientStatus := ⟨"subj", .Pregame, "m1"⟩

/-- The `ClientInfo` decode of `ambiguousFrame`. -/
def ambiguousClientInfo : Event (MessagingServiceMessage ClientStatus) :=
  ⟨8, .EntitlementsToken, ⟨⟨⟨"s", .Menus, ""⟩⟩, .Update, "u"⟩⟩

theorem lock_agents_append (lock : String → Except String Unit)
    (pre post : List GameAgent) (winner : GameAgent)
    (hpre : ∀ a ∈ pre, lock a.uuid ≠ Except.ok ())
    (hw : lock winner.uuid = Except.ok ()) (i : Nat) :
    lock_agents lock (pre ++ winner :: post) i =
      (pre.map (fun a => a.uuid) ++ [winner.uuid],
       some (winner, i + pre.length)) := by
  induction pre generalizing i with
  | nil => simp [lock_agents, hw]
  | cons a rest ih =>
    have ha := hpre a (List.mem_cons_self a rest)
    cases hcase : lock a.uuid with
    | ok v => cases v; exact absurd hcase ha
    | error err =>
      simp only [List.cons_append, lock_agents, hcase, List.append_eq]
      rw [ih (fun b hb => hpre b (List.mem_cons_of_mem a hb)) (i + 1)]
      simp [Prod.ext_iff]
      omega

theorem lock_agents_all_fail (lock : String → Except String Unit)
    (agents : List GameAgent)
    (h : ∀ a ∈ agents, lock a.uuid ≠ Except.ok ()) (i : Nat) :
    lock_agents lock agents i = (agents.map (fun a => a.uuid), none) := by
  induction agents generalizing i with
  | nil => simp [lock_agents]
  | cons a rest ih =>
    have ha := h a (List.mem_cons_self a rest)
    cases hcase : lock a.uuid with
    | ok v => cases v; exact absurd hcase ha
    | error err =>
      simp only [lock_agents, hcase, List.map_cons]
      rw [ih (fun b hb => h b (List.mem_cons_of_mem a hb)) (i + 1)]

theorem handle_pregame_done (cfg : Config) (mid : String) (env : PregameEnv)
    (wait : Bool) (map : GameMap) (hint : env.interrupt = false)
    (hmap : resolve_map env = some map) :
    handle_pregame cfg (some mid) env wait =
      .done (lock_agents env.lock_agent
               (cfg.get_agents env.game_agents env.shuffle map.name) 0).1
            (lock_agents env.lock_agent
               (cfg.get_agents env.game_agents env.shuffle map.name) 0).2
            wait := by
  simp [handle_pregame, hint, hmap]

/-- C1: in the Automation Sequence the engine attempts the configured
character list in list order, stops at the first successful lock and never
attempts a later candidate; for `[A, B, C]` with A and B failing and C
succeeding it records C locked after 2 failed attempts and attempts no
further candidate; an empty list completes with no lock attempt and no
error; and the attempts/result of `handle_pregame` are exactly those of
this lock loop run on `Config::get_agents` of the resolved map. -/
theorem claim_C1 :
    (∀ (lock : String → Except String Unit) (pre post : List GameAgent)
       (winner : GameAgent),
       (∀ a ∈ pre, lock a.uuid ≠ Except.ok ()) →
       lock winner.uuid = Except.ok () →
       lock_agents lock (pre ++ winner :: post) 0 =
         (pre.map (fun a => a.uuid) ++ [winner.uuid],
          some (winner, pre.length))) ∧
    (∀ (lock : String → Except String Unit) (agents : List GameAgent),
       (∀ a ∈ agents, lock a.uuid ≠ Except.ok ()) →
       lock_agents lock agents 0 = (agents.map (fun a => a.uuid), none)) ∧
    (∀ (lock : String → Except String Unit) (A B C : GameAgent),
       lock A.uuid ≠ Except.ok () → lock B.uuid ≠ Except.ok () →
       lock C.uuid = Except.ok () →
       lock_agents lock [A, B, C] 0 =
         ([A.uuid, B.uuid, C.uuid], some (C, 2))) ∧
    (∀ (lock : String → Except String Unit),
       lock_agents lock [] 0 = ([], none)) ∧
    (∀ (cfg : Config) (mid : String) (env : PregameEnv) (wait : Bool)
       (map : GameMap), env.interrupt = false →
       resolve_map env = some map →
       handle_pregame cfg (some mid) env wait =
         .done (lock_agents env.lock_agent
                  (cfg.get_agents env.game_agents env.shuffle map.name) 0).1
               (lock_agents env.lock_agent
                  (cfg.get_agents env.game_agents env.shuffle map.name) 0).2
               wait) := by
  refine ⟨?_, ?_, ?_, ?_, ?_⟩
  · intro lock pre post winner hpre hw
    simpa using lock_agents_append lock pre post winner hpre hw 0
  · intro lock agents h
    exact lock_agents_all_fail lock agents h 0
  · intro lock A B C hA hB hC
    have := lock_agents_append lock [A, B] [] C
      (by intro a ha
          simp only [List.mem_cons, List.not_mem_nil, or_false] at ha
          rcases ha with rfl | rfl
          · exact hA
          · exact hB) hC 0
    simpa using this
  · intro lock; rfl
  · intro cfg mid env wait map hint hmap
    exact handle_pregame_done cfg mid env wait map hint hmap

/-- C1 witness: the `[A, B, C]` scenario at concrete agents and a concrete
lock oracle where only C locks. -/
theorem claim_C1_witness :
    (lockEx agA.uuid ≠ Except.ok () ∧ lockEx agB.uuid ≠ Except.ok () ∧
     lockEx agC.uuid = Except.ok ()) ∧
    lock_agents lockEx [agA, agB, agC] 0 = (["a", "b", "c"], some (agC, 2)) :=
  ⟨⟨by decide, by decide, by decide⟩, by
    have := claim_C1.2.2.1 lockEx agA agB agC (by decide) (by decide)
      (by decide)
    simpa [agA, agB, agC] using this⟩

theorem handleEvent_dup (s : SessionState) (status : ClientStatus)
    (h : status.loop_state = s.loop_state) :
    handleEvent s (.ClientInfo status) = (s, none) := by
  unfold handleEvent
  cases hls : status.loop_state <;> rw [hls] at h <;> simp [hls, ← h]

/-- C2: a reported phase equal to the currently recorded phase leaves the
Session State unchanged and runs no automation; and the transition
Idle -> Pregame for match "m1" followed by a duplicate Pregame report
yields exactly one Automation Sequence execution, for match "m1". -/
theorem claim_C2 :
    (∀ (s : SessionState) (status : ClientStatus),
       status.loop_state = s.loop_state →
       handleEvent s (.ClientInfo status) = (s, none)) ∧
    (∀ (auth : ValorantClientAuth) (subj : String),
       processEvents ⟨auth, none, .Menus⟩
         [.ClientInfo ⟨subj, .Pregame, "m1"⟩,
          .ClientInfo ⟨subj, .Pregame, "m1"⟩] =
       (⟨auth, some "m1", .Pregame⟩, ["m1"])) := by
  constructor
  · exact handleEvent_dup
  · intro auth subj
    rfl

/-- C2 witness: a duplicate Menus report on the idle state is a no-op. -/
theorem claim_C2_witness :
    ((⟨"subj", .Menus, ""⟩ : ClientStatus).loop_state =
        stateIdle.loop_state) ∧
    handleEvent stateIdle (.ClientInfo ⟨"subj", .Menus, ""⟩) =
      (stateIdle, none) :=
  ⟨by decide, claim_C2.1 stateIdle ⟨"subj", .Menus, ""⟩ (by decide)⟩

/-- C5: the Retrying Request Sender performs at most two attempts, retries
exactly once and only on a first-attempt timeout, surfaces any other
first-attempt failure immediately, returns the success value when the
timeout is followed by a success, and returns the second timeout error
without a third attempt when both attempts time out. -/
theorem claim_C5 :
    (∀ (α : Type) (attempt : Nat → ReqResult α),
       (send_with_retry attempt).2 ≤ 2) ∧
    (∀ (α : Type) (attempt : Nat → ReqResult α) (v : α),
       attempt 0 = .ok v → send_with_retry attempt = (.ok v, 1)) ∧
    (∀ (α : Type) (attempt : Nat → ReqResult α) (e : String),
       attempt 0 = .otherErr e → send_with_retry attempt = (.otherErr e, 1)) ∧
    (∀ (α : Type) (attempt : Nat → ReqResult α) (e : String),
       attempt 0 = .timeoutErr e → send_with_retry attempt = (attempt 1, 2)) ∧
    (∀ (α : Type) (attempt : Nat → ReqResult α) (e : String) (v : α),
       attempt 0 = .timeoutErr e → attempt 1 = .ok v →
       send_with_retry attempt = (.ok v, 2)) ∧
    (∀ (α : Type) (attempt : Nat → ReqResult α) (e1 e2 : String),
       attempt 0 = .timeoutErr e1 → attempt 1 = .timeoutErr e2 →
       send_with_retry attempt = (.timeoutErr e2, 2)) := by
  refine ⟨?_, ?_, ?_, ?_, ?_, ?_⟩
  · intro α attempt
    cases h : attempt 0 <;> simp [send_with_retry, h]
  · intro α attempt v h; simp [send_with_retry, h]
  · intro α attempt e h; simp [send_with_retry, h]
  · intro α attempt e h; simp [send_with_retry, h]
  · intro α attempt e v h0 h1; simp [send_with_retry, h0, h1]
  · intro α attempt e1 e2 h0 h1; simp [send_with_retry, h0, h1]

/-- C5 witness: a call that times out once then succeeds. -/
theorem claim_C5_witness :
    (attemptTimeoutThenOk 0 = .timeoutErr "t" ∧
     attemptTimeoutThenOk 1 = .ok 7) ∧
    send_with_retry attemptTimeoutThenOk = (.ok 7, 2) :=
  ⟨⟨by decide, by decide⟩,
   claim_C5.2.2.2.2.1 Nat attemptTimeoutThenOk "t" 7 (by decide) (by decide)⟩

theorem handleEvent_invariant (s : SessionState) (e : ValorantEvent)
    (h : matchIdInvariant s) : matchIdInvariant (handleEvent s e).1 := by
  cases e with
  | EntitlementsTokenChanged a =>
    simpa [handleEvent, matchIdInvariant] using h
  | ClientInfo st =>
    obtain ⟨subj, ls, mid⟩ := st
    cases ls
    · by_cases hc : s.loop_state = GameLoopState.Pregame
      · simpa [handleEvent, hc, matchIdInvariant] using h
      · simp [handleEvent, hc, matchIdInvariant]
    · by_cases hc : s.loop_state = GameLoopState.Ingame
      · simpa [handleEvent, hc, matchIdInvariant] using h
      · simp [handleEvent, hc, matchIdInvariant]
    · by_cases hc : s.loop_state = GameLoopState.Menus
      · simpa [handleEvent, hc, matchIdInvariant] using h
      · simp [handleEvent, hc, matchIdInvariant]

theorem init_invariant (auth : ValorantClientAuth) (cfg : Config)
    (p : Except String CurrentPlayerPregame)
    (i : Except String CurrentPlayerIngame) (env : PregameEnv) :
    matchIdInvariant (ValorantClient.init auth cfg p i env).state := by
  cases p with
  | ok pg => simp [ValorantClient.init, matchIdInvariant]
  | error e1 =>
    cases i with
    | ok ig => simp [ValorantClient.init, matchIdInvariant]
    | error e2 => simp [ValorantClient.init, matchIdInvariant]

theorem processEvents_invariant (events : List ValorantEvent)
    (s : SessionState) (h : matchIdInvariant s) :
    matchIdInvariant (processEvents s events).1 := by
  induction events generalizing s with
  | nil => simpa [processEvents] using h
  | cons e rest ih =>
    simp only [processEvents]
    exact ih (handleEvent s e).1 (handleEvent_invariant s e h)

/-- C6: in every state produced by the bootstrap path, and after any
sequence of event-handling steps from it, the Match Identifier is `some`
exactly when the Game Phase is Pregame or InGame; every single step
preserves this coupling of the two fields. -/
theorem claim_C6 :
    (∀ (auth : ValorantClientAuth) (cfg : Config)
       (p : Except String CurrentPlayerPregame)
       (i : Except String CurrentPlayerIngame) (env : PregameEnv),
       matchIdInvariant (ValorantClient.init auth cfg p i env).state) ∧
    (∀ (s : SessionState) (e : ValorantEvent),
       matchIdInvariant s → matchIdInvariant (handleEvent s e).1) ∧
    (∀ (auth : ValorantClientAuth) (cfg : Config)
       (p : Except String CurrentPlayerPregame)
       (i : Except String CurrentPlayerIngame) (env : PregameEnv)
       (events : List ValorantEvent),
       matchIdInvariant
         (processEvents (ValorantClient.init auth cfg p i env).state
            events).1) :=
  ⟨init_invariant, handleEvent_invariant,
   fun auth cfg p i env events =>
     processEvents_invariant events _ (init_invariant auth cfg p i env)⟩

/-- C6 witness: the invariant holds on the idle state and is preserved by
a concrete Pregame step. -/
theorem claim_C6_witness :
    matchIdInvariant stateIdle ∧
    matchIdInvariant (handleEvent stateIdle
      (.ClientInfo statusPregameM1)).1 :=
  ⟨by decide,
   claim_C6.2.1 stateIdle (.ClientInfo statusPregameM1) (by decide)⟩

/-- C7: a permanently ended stream (receiver taken by `close`, or queue
drained after the background loop went away) answers `next` with `None`
and is left in the same state, so repeated calls keep returning `None`;
`close` itself produces such a stream. -/
theorem claim_C7 :
    (∀ s : ValorantEventStream, s.ended = true → s.next = some (none, s)) ∧
    (∀ s : ValorantEventStream,
       (s.close).next = some (none, s.close) ∧ (s.close).ended = true) := by
  constructor
  · intro s h
    obtain ⟨rx⟩ := s
    cases rx with
    | none => rfl
    | some st =>
      obtain ⟨buf, closed⟩ := st
      cases buf with
      | nil =>
        simp [ValorantEventStream.ended] at h
        simp [ValorantEventStream.next, h]
      | cons e rest =>
        simp [ValorantEventStream.ended] at h
  · intro s
    exact ⟨rfl, rfl⟩

/-- C7 witness: a drained stream with the sender gone keeps yielding
`None`. -/
theorem claim_C7_witness :
    streamEnded.ended = true ∧ streamEnded.next = some (none, streamEnded) :=
  ⟨by decide, claim_C7.1 streamEnded (by decide)⟩

/-- C8: a leave-pregame or leave-match command handled while the match
identifier is absent fails with the "No MatchID available" error, sends no
request (dropped without retry), and the command loop still processes
every queued command in order. -/
theorem claim_C8 :
    (∀ (s : SessionState) (env : HttpEnv), s.current_match_id = none →
       handleCommand s env .QuitPregame =
         (.error "No MatchID available", false) ∧
       handleCommand s env .QuitGame =
         (.error "No MatchID available", false)) ∧
    (∀ (s : SessionState) (env : HttpEnv) (cmd : ValorantCommand)
       (rest : List ValorantCommand),
       spawn_cmd_handler s env (cmd :: rest) =
         handleCommand s env cmd :: spawn_cmd_handler s env rest) ∧
    (∀ (s : SessionState) (env : HttpEnv) (cmds : List ValorantCommand),
       (spawn_cmd_handler s env cmds).length = cmds.length) := by
  refine ⟨?_, ?_, ?_⟩
  · intro s env h
    constructor <;> simp [handleCommand, quit_pregame, quit_ingame, h]
  · intro s env cmd rest; rfl
  · intro s env cmds
    induction cmds with
    | nil => rfl
    | cons c rest ih => simp [spawn_cmd_handler, ih]

/-- C8 witness: a leave-pregame command on the idle state. -/
theorem claim_C8_witness :
    stateIdle.current_match_id = none ∧
    handleCommand stateIdle httpEnvEx .QuitPregame =
      (.error "No MatchID available", false) :=
  ⟨rfl, (claim_C8.1 stateIdle httpEnvEx rfl).1⟩

theorem handle_pregame_waited (cfg : Config) (mid : Option String)
    (env : PregameEnv) (w : Bool) (att : List String)
    (lk : Option (GameAgent × Nat)) (wd : Bool)
    (h : handle_pregame cfg mid env w = .done att lk wd) : wd = w := by
  unfold handle_pregame at h
  cases mid with
  | none => simp at h
  | some m =>
    cases hi : env.interrupt with
    | true => rw [hi] at h; simp at h
    | false =>
      rw [hi] at h
      simp only [Bool.false_eq_true, if_false] at h
      cases hr : resolve_map env with
      | none => rw [hr] at h; simp at h
      | some map =>
        rw [hr] at h
        simp only [PregameOutcome.done.injEq] at h
        exact h.2.2.symm

/-- C9: bootstrap resolves the initial state eagerly — the pregame probe
comes first; only on its failure is the in-game probe made; if both fail
the engine starts in the idle phase with no match identifier; and the
Pregame bootstrap path runs the Automation Sequence with `wait = false`,
which never performs the initial delay. -/
theorem claim_C9 :
    (∀ (auth : ValorantClientAuth) (cfg : Config) (env : PregameEnv)
       (i : Except String CurrentPlayerIngame) (pg : CurrentPlayerPregame),
       ValorantClient.init auth cfg (.ok pg) i env =
         { state := ⟨auth, some pg.match_id, .Pregame⟩,
           probes := [.pregame],
           pregameRun :=
             some (handle_pregame cfg (some pg.match_id) env false) }) ∧
    (∀ (auth : ValorantClientAuth) (cfg : Config) (env : PregameEnv)
       (e : String) (ig : CurrentPlayerIngame),
       ValorantClient.init auth cfg (.error e) (.ok ig) env =
         { state := ⟨auth, some ig.match_id, .Ingame⟩,
           probes := [.pregame, .ingame], pregameRun := none }) ∧
    (∀ (auth : ValorantClientAuth) (cfg : Config) (env : PregameEnv)
       (e1 e2 : String),
       ValorantClient.init auth cfg (.error e1) (.error e2) env =
         { state := ⟨auth, none, .Menus⟩,
           probes := [.pregame, .ingame], pregameRun := none }) ∧
    (∀ (cfg : Config) (mid : Option String) (env : PregameEnv)
       (att : List String) (lk : Option (GameAgent × Nat)) (wd : Bool),
       handle_pregame cfg mid env false = .done att lk wd → wd = false) := by
  refine ⟨?_, ?_, ?_, ?_⟩
  · intro auth cfg env i pg; rfl
  · intro auth cfg env e ig; rfl
  · intro auth cfg env e1 e2; rfl
  · intro cfg mid env att lk wd h
    exact handle_pregame_waited cfg mid env false att lk wd h

/-- C9 witness: a completed bootstrap automation run carries
`waited = false`. -/
theorem claim_C9_witness :
    handle_pregame cfgNone (some "m1") envEx false = .done [] none false ∧
    false = false :=
  ⟨by decide,
   claim_C9.2.2.2 cfgNone (some "m1") envEx [] none false (by decide)⟩

/-- C10: when the pregame fetch succeeds but its map url has no catalog
entry, or when the fetch fails and the catalog has no entry named
"Ascent" — in particular when `init_globals` fell through both the remote
fetch and the cache and installed an empty catalog — the Automation
Sequence hits the `.unwrap()` panic instead of degrading to no action. -/
theorem claim_C10 :
    (∀ (cfg : Config) (mid : String) (env : PregameEnv) (wait : Bool)
       (p : PregameMatch), env.interrupt = false →
       env.get_pregame_match = .ok p →
       env.game_maps.find? (fun m => m.map_url == p.map_url) = none →
       handle_pregame cfg (some mid) env wait = .panicked) ∧
    (∀ (cfg : Config) (mid : String) (env : PregameEnv) (wait : Bool)
       (e : String), env.interrupt = false →
       env.get_pregame_match = .error e →
       env.game_maps.find? (fun m => m.name == "Ascent") = none →
       handle_pregame cfg (some mid) env wait = .panicked) ∧
    (∀ (e1 e2 : String), (init_globals (.error e1) (.error e2)).maps = []) ∧
    (∀ (cfg : Config) (mid : String) (env : PregameEnv) (wait : Bool)
       (e : String), env.interrupt = false →
       env.get_pregame_match = .error e → env.game_maps = [] →
       handle_pregame cfg (some mid) env wait = .panicked) := by
  refine ⟨?_, ?_, ?_, ?_⟩
  · intro cfg mid env wait p hint hok hfind
    simp [handle_pregame, hint, resolve_map, hok, hfind]
  · intro cfg mid env wait e hint herr hfind
    simp [handle_pregame, hint, resolve_map, herr, hfind]
  · intro e1 e2; rfl
  · intro cfg mid env wait e hint herr hmaps
    simp [handle_pregame, hint, resolve_map, herr, hmaps]

/-- C10 witness: fetch failure over an empty catalog panics. -/
theorem claim_C10_witness :
    (envNoMaps.interrupt = false ∧
     envNoMaps.get_pregame_match = .error "fetch failed" ∧
     envNoMaps.game_maps.find? (fun m => m.name == "Ascent") = none) ∧
    handle_pregame cfgNone (some "m1") envNoMaps true = .panicked :=
  ⟨⟨rfl, rfl, rfl⟩,
   claim_C10.2.1 cfgNone "m1" envNoMaps true "fetch failed" rfl rfl rfl⟩

/-- C3 counterexample: the claimed priority order (credentials-refresh
shape first) disagrees with the source decoder on `ambiguousFrame`, a
frame matching both shapes: the source decoder (serde untagged, variants
in declaration order) yields the status-report decode, the claimed order
yields the credentials decode. -/
theorem claim_C3_counterexample :
    ¬ (∀ j : Json, decodeRelevantEvent j = decodeRelevantEventSpecOrder j) :=
  fun h => absurd (h ambiguousFrame) (by decide)

/-- C3 (amended): the decoder matches each frame against the two known
shapes in priority order with the status-report shape first, then the
credentials-refresh shape; frames matching neither shape are silently
discarded by the stream loop. -/
theorem claim_C3 :
    (∀ (j : Json) (e : Event (MessagingServiceMessage ClientStatus)),
       decodeEvent (decodeMessagingServiceMessage decodeClientStatus) j =
         some e →
       decodeRelevantEvent j = some (.ClientInfo e)) ∧
    (∀ j : Json,
       decodeEvent (decodeMessagingServiceMessage decodeClientStatus) j =
         none →
       decodeRelevantEvent j =
         (decodeEvent decodeValorantClientAuth j).map
           RelevantEvent.EntitlementsToken) ∧
    (∀ (last : Option RelevantEvent) (text : String) (rest : List WsItem),
       text ≠ "" → parseRelevantFrame text = none →
       proxy_ws_events last (.msg text :: rest) =
         proxy_ws_events last rest) := by
  refine ⟨?_, ?_, ?_⟩
  · intro j e h; simp [decodeRelevantEvent, h]
  · intro j h
    simp only [decodeRelevantEvent, h]
    cases decodeEvent decodeValorantClientAuth j <;> simp
  · intro last text rest ht hp
    simp [proxy_ws_events, ht, hp]

/-- C3 witness: on the ambiguous frame the status-report shape matches and
wins. -/
theorem claim_C3_witness :
    decodeEvent (decodeMessagingServiceMessage decodeClientStatus)
      ambiguousFrame = some ambiguousClientInfo ∧
    decodeRelevantEvent ambiguousFrame =
      some (.ClientInfo ambiguousClientInfo) :=
  ⟨by decide, claim_C3.1 ambiguousFrame ambiguousClientInfo (by decide)⟩

/-- C4: a frame decoding to a value equal to the immediately preceding
decoded event is suppressed (and `last_event` is unchanged); the
comparison window is that single previous event, so an event equal to an
earlier but not immediately preceding decoded event is delivered, as the
concrete `[fX, fZ, fX]` run shows by delivering all three. -/
theorem claim_C4 :
    (∀ (e : RelevantEvent) (text : String) (rest : List WsItem),
       parseRelevantFrame text = some e →
       proxy_ws_events (some e) (.msg text :: rest) =
         proxy_ws_events (some e) rest) ∧
    (proxy_ws_events none [.msg frameX, .msg frameZ, .msg frameX] =
       [.EntitlementsTokenChanged ⟨"x", "y"⟩,
        .EntitlementsTokenChanged ⟨"z", "y"⟩,
        .EntitlementsTokenChanged ⟨"x", "y"⟩]) := by
  constructor
  · intro e text rest h
    have ht : text ≠ "" := by
      intro hteq
      rw [hteq] at h
      have h0 : parseRelevantFrame "" = none := by decide
      rw [h0] at h
      exact Option.noConfusion h
    simp [proxy_ws_events, ht, h]
  · decide

/-- C4 witness: a redelivery of `frameX` right after its first decode is
suppressed. -/
theorem claim_C4_witness :
    parseRelevantFrame frameX = some frameXEvent ∧
    proxy_ws_events (some frameXEvent) [.msg frameX] =
      proxy_ws_events (some frameXEvent) [] :=
  ⟨by decide, claim_C4.1 frameXEvent frameX [] (by decide)⟩
